import Mathlib

/-!
Shallow embedding of the ChatGo real-time chat core
(internal/websocket hub + client pumps, internal/db query layer),
with theorems about its registration, routing and dispatch behaviour.

Conventions of the embedding:
* Go maps are association lists with unique keys (`lookupA` / `setA` / `eraseA`).
* Go pointer identity of `*Client` is modelled by a session id `sid : Nat`,
  assigned once at `NewClient` time and never reused.
* The buffered `send` channel of a client is a bounded queue `Chan`;
  `close(ch)` on an already closed channel is a runtime panic, modelled by
  `Option` (`none` = panic).
* Database tables are lists of rows; SQL queries are translated join by join.
* Fallible collaborator calls return `Except Unit`.
-/

set_option autoImplicit false

namespace ChatGo

/-! ### Association list helpers (model of Go maps) -/

def lookupA {α β : Type} [DecidableEq α] : List (α × β) → α → Option β
  | [], _ => none
  | (a, b) :: t, k => if k = a then some b else lookupA t k

def setA {α β : Type} [DecidableEq α] : List (α × β) → α → β → List (α × β)
  | [], k, v => [(k, v)]
  | (a, b) :: t, k, v => if k = a then (a, v) :: t else (a, b) :: setA t k v

def eraseA {α β : Type} [DecidableEq α] : List (α × β) → α → List (α × β)
  | [], _ => []
  | (a, b) :: t, k => if k = a then t else (a, b) :: eraseA t k

theorem lookupA_nil {α β : Type} [DecidableEq α] (k : α) :
    lookupA ([] : List (α × β)) k = none := rfl

theorem lookupA_cons {α β : Type} [DecidableEq α] (a : α) (b : β) (t : List (α × β)) (k : α) :
    lookupA ((a, b) :: t) k = if k = a then some b else lookupA t k := rfl

theorem lookupA_setA_self {α β : Type} [DecidableEq α]
    (l : List (α × β)) (k : α) (v : β) : lookupA (setA l k v) k = some v := by
  induction l with
  | nil => simp [setA, lookupA]
  | cons hd t ih =>
    obtain ⟨a, b⟩ := hd
    by_cases h : k = a <;> simp [setA, lookupA, h, ih]

theorem lookupA_setA_ne {α β : Type} [DecidableEq α]
    (l : List (α × β)) (k j : α) (v : β) (hne : j ≠ k) :
    lookupA (setA l k v) j = lookupA l j := by
  induction l with
  | nil => simp [setA, lookupA, hne]
  | cons hd t ih =>
    obtain ⟨a, b⟩ := hd
    by_cases h : k = a
    · subst h
      simp [setA, lookupA, hne]
    · by_cases hj : j = a <;> simp [setA, lookupA, h, hj, ih]

/-! ### Database model (`internal/db`)

Tables of the migrations: `users (id, username)`,
`conversations (id)` (listed in `ORDER BY created_at DESC` order),
`conversation_participants (conversation_id, user_id)`, `messages`.
`failQuery` models a SELECT failing with a storage error,
`failPersist` an INSERT failing with a storage error. -/

structure Msg where
  id : Nat
  conversationID : String
  senderID : String
  content : String
  createdAt : Nat
deriving DecidableEq, Repr

structure DB where
  users : List (String × String)
  conversations : List String
  participants : List (String × String)
  messages : List Msg
  nextID : Nat
  now : Nat
  failQuery : Bool
  failPersist : Bool
deriving DecidableEq, Repr

/-- Row type of `GetUserConversations` (struct
`models.ConversationWithParticipants`: the conversation plus the other
user of this 1:1 conversation). -/
structure ConversationWithParticipants where
  id : String
  otherUserID : String
  otherUsername : String
deriving DecidableEq, Repr

/-- `db.IsUserInConversation`: `SELECT 1 FROM conversation_participants
WHERE user_id = $1 AND conversation_id = $2`; no row gives `(false, nil)`,
a row gives `(true, nil)`, a storage error gives `(false, err)`. -/
def IsUserInConversation (db : DB) (userID conversationID : String) :
    Except Unit Bool :=
  if db.failQuery then .error ()
  else .ok ((conversationID, userID) ∈ db.participants)

/-- The rows which conversation `cid` contributes to the
`GetUserConversations` result for `userID`: the SQL joins
`cp1` (requester is a participant), `cp2` (every other participant) and
`users` (username of the other participant). -/
def convRowsFor (db : DB) (userID cid : String) :
    List ConversationWithParticipants :=
  db.participants.filterMap (fun p =>
    if p.1 = cid ∧ p.2 ≠ userID ∧ (cid, userID) ∈ db.participants then
      (lookupA db.users p.2).map
        (fun un => ⟨cid, p.2, un⟩)
    else none)

/-- `db.GetUserConversations`: one row per (conversation of the user,
other participant) pair, conversations scanned in `created_at DESC`
order (the order of `db.conversations`). -/
def GetUserConversations (db : DB) (userID : String) :
    Except Unit (List ConversationWithParticipants) :=
  if db.failQuery then .error ()
  else .ok (db.conversations.flatMap (convRowsFor db userID))

/-- `db.CreateMessage`: `INSERT INTO messages ... RETURNING ...`.
Returns the saved message (server-assigned id and timestamp) and the
updated database. -/
def CreateMessage (db : DB) (conversationID senderID content : String) :
    Except Unit (Msg × DB) :=
  if db.failPersist then .error ()
  else
    let m : Msg :=
      { id := db.nextID, conversationID := conversationID,
        senderID := senderID, content := content, createdAt := db.now }
    .ok (m, { db with messages := db.messages ++ [m], nextID := db.nextID + 1 })

/-! ### Sessions and the hub (`internal/websocket`) -/

/-- The buffered `send` channel of a client. -/
structure Chan where
  capacity : Nat
  buf : List String
  isClosed : Bool
deriving DecidableEq, Repr

/-- Go `close(ch)`: a runtime panic (`none`) if the channel is already
closed. -/
def Chan.goClose (c : Chan) : Option Chan :=
  if c.isClosed then none else some { c with isClosed := true }

/-- Runtime state owned by one client: its send channel and its
`closeOnce : sync.Once` latch. -/
structure SessionState where
  chan : Chan
  onceDone : Bool
deriving DecidableEq, Repr

/-- `Client.Close`: `c.closeOnce.Do(func() { close(c.send) })` — the
channel close runs only the first time. -/
def SessionState.close (s : SessionState) : Option SessionState :=
  if s.onceDone then some s
  else (s.chan.goClose).map (fun ch => ⟨ch, true⟩)

/-- `n` sequential invocations of `Client.Close` (concurrent calls are
serialized by `sync.Once`, so any interleaving is such a sequence). -/
def closeN : Nat → SessionState → Option SessionState
  | 0, s => some s
  | n + 1, s => (SessionState.close s).bind (closeN n)

/-- The identity data of a `*websocket.Client` (fields set by
`NewClient`); `sid` models the pointer identity of the Go struct. -/
structure Client where
  sid : Nat
  userID : String
  username : String
deriving DecidableEq, Repr

/-- Shared state of the hub and the per-client session heap.
`clients` is `Hub.clients : map[string]*Client` (user id to client
pointer), `sessions` maps each allocated client pointer to the session
state it owns, `dropped` counts buffer-full drops (observable via the
log line in `Hub.Run`), `broadcast` is the buffered `Hub.broadcast`
channel as a queue of (recipient, data) pairs. -/
structure World where
  clients : List (String × Nat)
  sessions : List (Nat × SessionState)
  dropped : Nat
  broadcast : List (String × String)
deriving DecidableEq, Repr

def World.sidOpen (w : World) (sid : Nat) : Bool :=
  match lookupA w.sessions sid with
  | some s => !s.chan.isClosed && !s.onceDone
  | none => false

def World.sidClosed (w : World) (sid : Nat) : Bool :=
  match lookupA w.sessions sid with
  | some s => s.chan.isClosed
  | none => false

/-- Run `Client.Close` on the session owned by client pointer `sid`
(the `oldClient.Close()` / `client.Close()` calls in `Hub.Run`). -/
def closeSession (w : World) (sid : Nat) : Option World :=
  match lookupA w.sessions sid with
  | none => some w
  | some s =>
    (SessionState.close s).map
      (fun s2 => { w with sessions := setA w.sessions sid s2 })

/-- First half of the register case of `Hub.Run`: if the user already
has a connection, close the old one. The map is not updated yet. -/
def closeExisting (w : World) (userID : String) : Option World :=
  match lookupA w.clients userID with
  | some oldSid => closeSession w oldSid
  | none => some w

/-- Second half of the register case:
`h.clients[client.UserID] = client`. -/
def publish (w : World) (c : Client) : World :=
  { w with clients := setA w.clients c.userID c.sid }

/-- The register case of `Hub.Run`, executed atomically under
`h.mutex`: close any existing client for this identity first, then make
the new client visible in the map. -/
def hubRegister (w : World) (c : Client) : Option World :=
  (closeExisting w c.userID).map (fun w1 => publish w1 c)

/-- Process a sequence of register requests. -/
def registerAll : World → List Client → Option World
  | w, [] => some w
  | w, c :: rest => (hubRegister w c).bind (fun w1 => registerAll w1 rest)

/-- The unregister case of `Hub.Run`: remove the entry and close the
client only if the client passed is still the one currently mapped for
its user id (`existingClient == client` is Go pointer equality,
modelled by `sid` equality); otherwise skip. -/
def hubUnregister (w : World) (c : Client) : Option World :=
  match lookupA w.clients c.userID with
  | some sid =>
    if sid = c.sid then
      closeSession { w with clients := eraseA w.clients c.userID } c.sid
    else some w
  | none => some w

/-- The broadcast case of `Hub.Run`: look up the recipient; if online,
attempt a `select`-with-`default` send onto the client send channel —
deliver when there is room, drop (and log) when the buffer is full. A
send on a closed channel is a Go runtime panic (`none`). An offline
recipient is a silent no-op. -/
def hubBroadcast (w : World) (recipientID data : String) : Option World :=
  match lookupA w.clients recipientID with
  | none => some w
  | some sid =>
    match lookupA w.sessions sid with
    | none => some w
    | some s =>
      if s.chan.isClosed then none
      else if s.chan.buf.length < s.chan.capacity then
        let s2 : SessionState :=
          { s with chan := { s.chan with buf := s.chan.buf ++ [data] } }
        some { w with sessions := setA w.sessions sid s2 }
      else some { w with dropped := w.dropped + 1 }

/-- `Hub.SendToUser`: serialize the message, return the serialization
error if any, otherwise enqueue onto the `broadcast` channel and return
nil. The return value is produced before any delivery is attempted;
`marshal` abstracts `json.Marshal`. -/
def SendToUser {α : Type} (marshal : α → Option String) (w : World)
    (userID : String) (message : α) : Except Unit World :=
  match marshal message with
  | none => .error ()
  | some data => .ok { w with broadcast := w.broadcast ++ [(userID, data)] }

/-! ### Reader-loop message handlers (`internal/websocket/client.go`) -/

/-- Wire format of inbound frames (`IncomingMessage`). -/
structure IncomingMessage where
  type : String
  conversationID : String
  content : String
  isTyping : Bool
deriving DecidableEq, Repr

/-- Outbound `ChatMessage` event (type "message"); `createdAt` stands
for the RFC3339-formatted server timestamp of the saved row. -/
structure ChatMessage where
  id : Nat
  conversationID : String
  senderID : String
  senderUsername : String
  content : String
  createdAt : Nat
deriving DecidableEq, Repr

/-- Outbound `TypingMessage` event (type "typing"). -/
structure TypingMessage where
  conversationID : String
  userID : String
  username : String
  isTyping : Bool
deriving DecidableEq, Repr

inductive OutPayload where
  | chat (m : ChatMessage)
  | typing (m : TypingMessage)
deriving DecidableEq, Repr

instance {ε α : Type} [DecidableEq ε] [DecidableEq α] :
    DecidableEq (Except ε α) := fun x y =>
  match x, y with
  | .error a, .error b =>
    if h : a = b then .isTrue (by rw [h])
    else .isFalse (fun hc => h (by cases hc; rfl))
  | .ok a, .ok b =>
    if h : a = b then .isTrue (by rw [h])
    else .isFalse (fun hc => h (by cases hc; rfl))
  | .error _, .ok _ => .isFalse (fun hc => Except.noConfusion hc)
  | .ok _, .error _ => .isFalse (fun hc => Except.noConfusion hc)

/-- One observable collaborator call made by the reader-loop handlers:
the participation check, the persistence call, or one
`hub.SendToUser` dispatch. -/
inductive Ev where
  | check (userID conversationID : String) (result : Except Unit Bool)
  | persist (conversationID senderID content : String)
      (result : Except Unit Msg)
  | dispatch (recipientID : String) (payload : OutPayload)
deriving DecidableEq, Repr

def Ev.isDispatch : Ev → Bool
  | .dispatch _ _ => true
  | _ => false

def Ev.isPersist : Ev → Bool
  | .persist _ _ _ _ => true
  | _ => false

def Ev.isPersistOk : Ev → Bool
  | .persist _ _ _ (.ok _) => true
  | _ => false

/-- The recipient ids of the dispatch calls of a trace, in call order. -/
def dispatchTargets (evs : List Ev) : List String :=
  evs.filterMap (fun e => match e with
    | .dispatch r _ => some r
    | _ => none)

/-- `Client.sendToConversationParticipants`: the recipient ids passed
to `hub.SendToUser`, in call order. The Go loop scans the sender
conversation list, sends to the `OtherUserID` of the first row whose id
matches, and breaks; after the loop it always also sends to the sender
itself. A failing conversation query returns early with no sends. -/
def sendToConversationParticipants (db : DB) (c : Client)
    (conversationID : String) : List String :=
  match GetUserConversations db c.userID with
  | .error _ => []
  | .ok conversations =>
    (match conversations.find? (fun conv => conv.id == conversationID) with
     | some conv => [conv.otherUserID]
     | none => []) ++ [c.userID]

/-- `Client.handleChatMessage`: participation check (silent drop on
error or non-membership), persist (drop and log on failure), then fan
out the saved message. Returns the collaborator-call trace and the
resulting database. -/
def handleChatMessage (db : DB) (c : Client) (msg : IncomingMessage) :
    List Ev × DB :=
  match IsUserInConversation db c.userID msg.conversationID with
  | .error e => ([.check c.userID msg.conversationID (.error e)], db)
  | .ok false => ([.check c.userID msg.conversationID (.ok false)], db)
  | .ok true =>
    match CreateMessage db msg.conversationID c.userID msg.content with
    | .error e =>
      ([.check c.userID msg.conversationID (.ok true),
        .persist msg.conversationID c.userID msg.content (.error e)], db)
    | .ok (savedMsg, db2) =>
      let chatMsg : ChatMessage :=
        { id := savedMsg.id, conversationID := savedMsg.conversationID,
          senderID := savedMsg.senderID, senderUsername := c.username,
          content := savedMsg.content, createdAt := savedMsg.createdAt }
      ([.check c.userID msg.conversationID (.ok true),
        .persist msg.conversationID c.userID msg.content (.ok savedMsg)] ++
        (sendToConversationParticipants db2 c msg.conversationID).map
          (fun r => .dispatch r (.chat chatMsg)), db2)

/-- `Client.handleTypingMessage`: participation check (silent drop on
error or non-membership), no persistence, then fan out the typing
notification through the same helper. -/
def handleTypingMessage (db : DB) (c : Client) (msg : IncomingMessage) :
    List Ev :=
  match IsUserInConversation db c.userID msg.conversationID with
  | .error e => [.check c.userID msg.conversationID (.error e)]
  | .ok false => [.check c.userID msg.conversationID (.ok false)]
  | .ok true =>
    let typingMsg : TypingMessage :=
      { conversationID := msg.conversationID, userID := c.userID,
        username := c.username, isTyping := msg.isTyping }
    .check c.userID msg.conversationID (.ok true) ::
      (sendToConversationParticipants db c msg.conversationID).map
        (fun r => .dispatch r (.typing typingMsg))

/-! ### Auxiliary lemmas -/

theorem lookupA_eq_none {α β : Type} [DecidableEq α]
    (l : List (α × β)) (k : α) (h : k ∉ l.map Prod.fst) :
    lookupA l k = none := by
  induction l with
  | nil => rfl
  | cons hd t ih =>
    obtain ⟨a, b⟩ := hd
    simp only [List.map_cons, List.mem_cons] at h
    push_neg at h
    simp [lookupA, h.1, ih h.2]

theorem lookupA_eraseA_self {α β : Type} [DecidableEq α]
    (l : List (α × β)) (k : α) (hnd : (l.map Prod.fst).Nodup) :
    lookupA (eraseA l k) k = none := by
  induction l with
  | nil => rfl
  | cons hd t ih =>
    obtain ⟨a, b⟩ := hd
    simp only [List.map_cons, List.nodup_cons] at hnd
    by_cases h : k = a
    · subst h
      simp [eraseA, lookupA_eq_none t k hnd.1]
    · simp [eraseA, lookupA, h, ih hnd.2]

theorem sidOpen_clients_irrel (w : World) (cl : List (String × Nat)) (j : Nat) :
    World.sidOpen { w with clients := cl } j = w.sidOpen j := rfl

theorem sidClosed_clients_irrel (w : World) (cl : List (String × Nat)) (j : Nat) :
    World.sidClosed { w with clients := cl } j = w.sidClosed j := rfl

theorem sidOpen_update_ne (w : World) (k : Nat) (s2 : SessionState)
    (j : Nat) (h : j ≠ k) :
    World.sidOpen { w with sessions := setA w.sessions k s2 } j = w.sidOpen j := by
  simp [World.sidOpen, lookupA_setA_ne _ _ _ _ h]

theorem sidClosed_update_ne (w : World) (k : Nat) (s2 : SessionState)
    (j : Nat) (h : j ≠ k) :
    World.sidClosed { w with sessions := setA w.sessions k s2 } j = w.sidClosed j := by
  simp [World.sidClosed, lookupA_setA_ne _ _ _ _ h]

theorem sidClosed_update_self (w : World) (k : Nat) (s2 : SessionState)
    (h : s2.chan.isClosed = true) :
    World.sidClosed { w with sessions := setA w.sessions k s2 } k = true := by
  simp [World.sidClosed, lookupA_setA_self, h]

theorem sidOpen_flags (w : World) (sid : Nat) (s : SessionState)
    (hs : lookupA w.sessions sid = some s) (h : w.sidOpen sid = true) :
    s.chan.isClosed = false ∧ s.onceDone = false := by
  have h0 : (!s.chan.isClosed && !s.onceDone) = true := by
    simpa [World.sidOpen, hs] using h
  simpa [Bool.and_eq_true, Bool.not_eq_true'] using h0

/-- `Client.Close` on an already closed session is the identity and,
in general, a successful close leaves the channel closed. -/
theorem close_result_closed (s s2 : SessionState)
    (h : SessionState.close s = some s2) (hc : s.chan.isClosed = true) :
    s2.chan.isClosed = true := by
  by_cases ho : s.onceDone
  · simp [SessionState.close, ho] at h
    subst h
    exact hc
  · simp [SessionState.close, ho, Chan.goClose, hc] at h

theorem closeN_fixed (s2 : SessionState) (h : SessionState.close s2 = some s2) :
    ∀ n : Nat, closeN n s2 = some s2 := by
  intro n
  induction n with
  | zero => rfl
  | succ k ih => simp [closeN, h, ih]

/-! ### Claim theorems -/

/-- Claim C8: session closure is idempotent. In any state reachable by
the `sync.Once` discipline (the channel is closed exactly when the
once-latch has fired), `Client.Close` never panics, the first call
leaves the channel closed, and every further call — from the reader
loop, the writer loop, or the hub — returns the same state without
running the channel close again, so any number of sequential
invocations (and hence any serialized interleaving of concurrent ones)
closes the send channel exactly once. -/
theorem close_idempotent (s : SessionState)
    (hinv : s.onceDone = s.chan.isClosed) :
    ∃ s2, SessionState.close s = some s2 ∧
      s2.chan.isClosed = true ∧ s2.onceDone = true ∧
      SessionState.close s2 = some s2 ∧
      (∀ n : Nat, closeN (n + 1) s = some s2) := by
  by_cases ho : s.onceDone
  · refine ⟨s, ?_, ?_, ho, ?_, ?_⟩
    · simp [SessionState.close, ho]
    · rw [← hinv]; exact ho
    · simp [SessionState.close, ho]
    · intro n
      simp [closeN, SessionState.close, ho]
      exact closeN_fixed s (by simp [SessionState.close, ho]) n
  · have hcl : s.chan.isClosed = false := by
      rw [← hinv]; simp [ho]
    refine ⟨⟨{ s.chan with isClosed := true }, true⟩, ?_, rfl, rfl, ?_, ?_⟩
    · simp [SessionState.close, ho, Chan.goClose, hcl]
    · simp [SessionState.close]
    · intro n
      have h1 : SessionState.close s = some ⟨{ s.chan with isClosed := true }, true⟩ := by
        simp [SessionState.close, ho, Chan.goClose, hcl]
      simp [closeN, h1]
      exact closeN_fixed _ (by simp [SessionState.close]) n

/-- Claim C8 witness: a fresh open session with buffer capacity 256. -/
theorem close_idempotent_witness :
    ∃ s2, SessionState.close ⟨⟨256, [], false⟩, false⟩ = some s2 ∧
      s2.chan.isClosed = true ∧ s2.onceDone = true ∧
      SessionState.close s2 = some s2 ∧
      (∀ n : Nat, closeN (n + 1) ⟨⟨256, [], false⟩, false⟩ = some s2) :=
  close_idempotent ⟨⟨256, [], false⟩, false⟩ rfl

/-- Claim C4: a stale unregister is a no-op. If the registry maps the
identity of client `a` to a different client pointer `bSid`, the
unregister request for `a` leaves the whole hub state unchanged: the
entry still maps to `bSid` and the mapped session is not closed.
Conversely, when the unregistered client is exactly the one currently
mapped (and its session is still open, with the map keys unique as in a
Go map), the entry is removed and that session is closed. -/
theorem stale_unregister_noop (w : World) (a : Client) (bSid : Nat)
    (hmap : lookupA w.clients a.userID = some bSid)
    (hne : bSid ≠ a.sid) :
    (hubUnregister w a = some w ∧
      lookupA w.clients a.userID = some bSid) ∧
    (∀ (w3 : World) (c2 : Client),
      lookupA w3.clients c2.userID = some c2.sid →
      w3.sidOpen c2.sid = true →
      (w3.clients.map Prod.fst).Nodup →
      ∃ w4, hubUnregister w3 c2 = some w4 ∧
        lookupA w4.clients c2.userID = none ∧
        w4.sidClosed c2.sid = true) := by
  constructor
  · constructor
    · simp [hubUnregister, hmap, hne]
    · exact hmap
  · intro w3 c2 hm ho hnd
    simp only [World.sidOpen] at ho
    rcases hs : lookupA w3.sessions c2.sid with _ | s
    · rw [hs] at ho; simp at ho
    · rw [hs] at ho
      simp only [Bool.and_eq_true, Bool.not_eq_true'] at ho
      refine ⟨{ w3 with
          clients := eraseA w3.clients c2.userID,
          sessions := setA w3.sessions c2.sid ⟨{ s.chan with isClosed := true }, true⟩ },
        ?_, ?_, ?_⟩
      · simp [hubUnregister, hm, closeSession, hs, SessionState.close, ho.2,
          Chan.goClose, ho.1]
      · exact lookupA_eraseA_self w3.clients c2.userID hnd
      · exact sidClosed_update_self _ _ _ rfl

/-- Claim C4 witness: user u mapped to client 2, stale unregister of
client 1 for the same user is a no-op; and a current unregister of
client 2 removes and closes it. -/
theorem stale_unregister_noop_witness :
    (hubUnregister
        ⟨[("u", 2)], [(1, ⟨⟨8, [], true⟩, true⟩), (2, ⟨⟨8, [], false⟩, false⟩)], 0, []⟩
        ⟨1, "u", "n"⟩ =
      some ⟨[("u", 2)], [(1, ⟨⟨8, [], true⟩, true⟩), (2, ⟨⟨8, [], false⟩, false⟩)], 0, []⟩ ∧
      lookupA [("u", 2)] "u" = some 2) ∧
    (∀ (w3 : World) (c2 : Client),
      lookupA w3.clients c2.userID = some c2.sid →
      w3.sidOpen c2.sid = true →
      (w3.clients.map Prod.fst).Nodup →
      ∃ w4, hubUnregister w3 c2 = some w4 ∧
        lookupA w4.clients c2.userID = none ∧
        w4.sidClosed c2.sid = true) :=
  stale_unregister_noop
    ⟨[("u", 2)], [(1, ⟨⟨8, [], true⟩, true⟩), (2, ⟨⟨8, [], false⟩, false⟩)], 0, []⟩
    ⟨1, "u", "n"⟩ 2 rfl (by decide)

/-- Claim C5: dispatch to a recipient whose outbound buffer is full
completes (no panic, no blocking construct in the model: the function
is total on open sessions), drops the event — every session buffer,
the registry and the broadcast queue are unchanged — and the drop is
observable only through the incremented drop counter, so dispatches to
other recipients of the same fan-out are unaffected. -/
theorem dispatch_drop_on_full (w : World) (u data : String) (sid : Nat)
    (s : SessionState)
    (hmap : lookupA w.clients u = some sid)
    (hsess : lookupA w.sessions sid = some s)
    (hopen : s.chan.isClosed = false)
    (hfull : s.chan.capacity ≤ s.chan.buf.length) :
    ∃ w2, hubBroadcast w u data = some w2 ∧
      w2.dropped = w.dropped + 1 ∧
      w2.sessions = w.sessions ∧
      w2.clients = w.clients ∧
      w2.broadcast = w.broadcast := by
  refine ⟨{ w with dropped := w.dropped + 1 }, ?_, rfl, rfl, rfl, rfl⟩
  simp [hubBroadcast, hmap, hsess, hopen, Nat.not_lt.mpr hfull]

/-- Claim C5 witness: capacity-1 buffer already holding one frame;
a second dispatch drops and only bumps the counter. -/
theorem dispatch_drop_on_full_witness :
    ∃ w2, hubBroadcast
        ⟨[("u", 1)], [(1, ⟨⟨1, ["m1"], false⟩, false⟩)], 0, []⟩ "u" "m2" = some w2 ∧
      w2.dropped = 0 + 1 ∧
      w2.sessions = [(1, ⟨⟨1, ["m1"], false⟩, false⟩)] ∧
      w2.clients = [("u", 1)] ∧
      w2.broadcast = [] :=
  dispatch_drop_on_full
    ⟨[("u", 1)], [(1, ⟨⟨1, ["m1"], false⟩, false⟩)], 0, []⟩ "u" "m2" 1
    ⟨⟨1, ["m1"], false⟩, false⟩ rfl rfl rfl (by decide)

/-- Claim C10: the return value of `Hub.SendToUser` carries no delivery
information. It is an error exactly when serialization fails; for a
serializable message it is nil and the only state change is appending
to the broadcast queue — the result status does not depend on the
registry, the session buffers, or any later drop, so for any two hub
states the status is the same. -/
theorem sendToUser_return_no_delivery_info {α : Type}
    (marshal : α → Option String) (w : World) (u : String) (m : α) :
    (match marshal m with
     | none => SendToUser marshal w u m = .error ()
     | some data =>
        SendToUser marshal w u m =
          .ok { w with broadcast := w.broadcast ++ [(u, data)] }) ∧
    (∀ w2 : World,
      ((SendToUser marshal w u m).isOk = (SendToUser marshal w2 u m).isOk)) ∧
    ((SendToUser marshal w u m).isOk = (marshal m).isSome) := by
  rcases h : marshal m with _ | data <;>
    simp [SendToUser, h, Except.isOk, Except.toBool]

/-- Claim C10 witness: a concrete serializer and a hub state whose only
recipient has a full capacity-1 buffer; the send still returns nil. -/
theorem sendToUser_return_no_delivery_info_witness :
    (match (fun n : Nat => if n = 0 then none else some "d") 1 with
     | none => SendToUser (fun n : Nat => if n = 0 then none else some "d")
          ⟨[("u", 1)], [(1, ⟨⟨1, ["f"], false⟩, false⟩)], 0, []⟩ "u" 1 = .error ()
     | some data =>
        SendToUser (fun n : Nat => if n = 0 then none else some "d")
            ⟨[("u", 1)], [(1, ⟨⟨1, ["f"], false⟩, false⟩)], 0, []⟩ "u" 1 =
          .ok { (⟨[("u", 1)], [(1, ⟨⟨1, ["f"], false⟩, false⟩)], 0, []⟩ : World) with
            broadcast :=
              (⟨[("u", 1)], [(1, ⟨⟨1, ["f"], false⟩, false⟩)], 0, []⟩ : World).broadcast
                ++ [("u", data)] }) ∧
    (∀ w2 : World,
      ((SendToUser (fun n : Nat => if n = 0 then none else some "d")
          ⟨[("u", 1)], [(1, ⟨⟨1, ["f"], false⟩, false⟩)], 0, []⟩ "u" 1).isOk =
        (SendToUser (fun n : Nat => if n = 0 then none else some "d") w2 "u" 1).isOk)) ∧
    ((SendToUser (fun n : Nat => if n = 0 then none else some "d")
        ⟨[("u", 1)], [(1, ⟨⟨1, ["f"], false⟩, false⟩)], 0, []⟩ "u" 1).isOk =
      ((fun n : Nat => if n = 0 then none else some "d") 1).isSome) :=
  sendToUser_return_no_delivery_info
    (fun n : Nat => if n = 0 then none else some "d")
    ⟨[("u", 1)], [(1, ⟨⟨1, ["f"], false⟩, false⟩)], 0, []⟩ "u" 1

/-- Claim C7: authorization gate for chat messages. If the
participation check errors or reports a non-participant, the handler
emits the check call and nothing else — zero persistence calls, zero
dispatch calls, the database untouched, and nothing surfaced back to
the sender (the trace holds no dispatch towards anyone, the sender
included, and the handler produces no error value). -/
theorem chat_authorization_gate (db : DB) (c : Client) (m : IncomingMessage)
    (hfail : IsUserInConversation db c.userID m.conversationID ≠ .ok true) :
    (handleChatMessage db c m).1 =
      [.check c.userID m.conversationID
        (IsUserInConversation db c.userID m.conversationID)] ∧
    (handleChatMessage db c m).2 = db ∧
    (∀ e ∈ (handleChatMessage db c m).1,
      e.isDispatch = false ∧ e.isPersist = false) := by
  rcases h : IsUserInConversation db c.userID m.conversationID with e | b
  · refine ⟨?_, ?_, ?_⟩ <;>
      simp [handleChatMessage, h, Ev.isDispatch, Ev.isPersist]
  · cases b
    · refine ⟨?_, ?_, ?_⟩ <;>
        simp [handleChatMessage, h, Ev.isDispatch, Ev.isPersist]
    · exact absurd h hfail

/-- Claim C7 witness: user A is not a participant of conversation c1. -/
theorem chat_authorization_gate_witness :
    (handleChatMessage
        ⟨[("A", "a"), ("B", "b")], ["c1"], [("c1", "B")], [], 1, 5, false, false⟩
        ⟨1, "A", "a"⟩ ⟨"message", "c1", "hi", false⟩).1 =
      [.check "A" "c1"
        (IsUserInConversation
          ⟨[("A", "a"), ("B", "b")], ["c1"], [("c1", "B")], [], 1, 5, false, false⟩
          "A" "c1")] ∧
    (handleChatMessage
        ⟨[("A", "a"), ("B", "b")], ["c1"], [("c1", "B")], [], 1, 5, false, false⟩
        ⟨1, "A", "a"⟩ ⟨"message", "c1", "hi", false⟩).2 =
      ⟨[("A", "a"), ("B", "b")], ["c1"], [("c1", "B")], [], 1, 5, false, false⟩ ∧
    (∀ e ∈ (handleChatMessage
        ⟨[("A", "a"), ("B", "b")], ["c1"], [("c1", "B")], [], 1, 5, false, false⟩
        ⟨1, "A", "a"⟩ ⟨"message", "c1", "hi", false⟩).1,
      e.isDispatch = false ∧ e.isPersist = false) :=
  chat_authorization_gate
    ⟨[("A", "a"), ("B", "b")], ["c1"], [("c1", "B")], [], 1, 5, false, false⟩
    ⟨1, "A", "a"⟩ ⟨"message", "c1", "hi", false⟩ (by decide)

/-- Claim C9: typing signals are participation-gated too. If the
participation check errors or reports a non-participant, the typing
handler emits the check call and nothing else — zero dispatch calls,
the intent silently dropped. -/
theorem typing_authorization_gate (db : DB) (c : Client) (m : IncomingMessage)
    (hfail : IsUserInConversation db c.userID m.conversationID ≠ .ok true) :
    handleTypingMessage db c m =
      [.check c.userID m.conversationID
        (IsUserInConversation db c.userID m.conversationID)] ∧
    (∀ e ∈ handleTypingMessage db c m, e.isDispatch = false) := by
  rcases h : IsUserInConversation db c.userID m.conversationID with e | b
  · refine ⟨?_, ?_⟩ <;> simp [handleTypingMessage, h, Ev.isDispatch]
  · cases b
    · refine ⟨?_, ?_⟩ <;> simp [handleTypingMessage, h, Ev.isDispatch]
    · exact absurd h hfail

/-- Claim C9 witness: user A is not a participant of conversation c1. -/
theorem typing_authorization_gate_witness :
    handleTypingMessage
        ⟨[("A", "a"), ("B", "b")], ["c1"], [("c1", "B")], [], 1, 5, false, false⟩
        ⟨1, "A", "a"⟩ ⟨"typing", "c1", "", true⟩ =
      [.check "A" "c1"
        (IsUserInConversation
          ⟨[("A", "a"), ("B", "b")], ["c1"], [("c1", "B")], [], 1, 5, false, false⟩
          "A" "c1")] ∧
    (∀ e ∈ handleTypingMessage
        ⟨[("A", "a"), ("B", "b")], ["c1"], [("c1", "B")], [], 1, 5, false, false⟩
        ⟨1, "A", "a"⟩ ⟨"typing", "c1", "", true⟩, e.isDispatch = false) :=
  typing_authorization_gate
    ⟨[("A", "a"), ("B", "b")], ["c1"], [("c1", "B")], [], 1, 5, false, false⟩
    ⟨1, "A", "a"⟩ ⟨"typing", "c1", "", true⟩ (by decide)

/-- Claim C3 (code defect, evaluated at the failing input): a typing
signal from participant A of the two-party conversation c1 (with B) is
dispatched to B and then to A itself — the fan-out helper always also
sends to the sending client, contradicting the comment at its call site
(send to all other participants) and the spec (never echoed to the
sender). -/
theorem typing_echoed_to_sender :
    dispatchTargets (handleTypingMessage
      ⟨[("A", "alice"), ("B", "bob")], ["c1"],
        [("c1", "A"), ("c1", "B")], [], 1, 5, false, false⟩
      ⟨1, "A", "alice"⟩ ⟨"typing", "c1", "", true⟩) = ["B", "A"] ∧
    "A" ∈ dispatchTargets (handleTypingMessage
      ⟨[("A", "alice"), ("B", "bob")], ["c1"],
        [("c1", "A"), ("c1", "B")], [], 1, 5, false, false⟩
      ⟨1, "A", "alice"⟩ ⟨"typing", "c1", "", true⟩) := by
  refine ⟨by decide, by decide⟩

/-- Claim C6: persist-before-dispatch. In every trace of
`handleChatMessage`, a dispatch call is strictly preceded by the
persistence call returning successfully; and if persistence fails, the
trace holds no dispatch at all. -/
theorem persist_before_dispatch (db : DB) (c : Client) (m : IncomingMessage) :
    (∀ l1 e l2, (handleChatMessage db c m).1 = l1 ++ e :: l2 →
      e.isDispatch = true →
      ∃ p1 p p2, l1 = p1 ++ p :: p2 ∧ Ev.isPersistOk p = true) ∧
    (∀ er, CreateMessage db m.conversationID c.userID m.content = .error er →
      ∀ e ∈ (handleChatMessage db c m).1, e.isDispatch = false) := by
  rcases h : IsUserInConversation db c.userID m.conversationID with e | b
  · constructor
    · intro l1 ev l2 hsplit hdisp
      have hmem : ev ∈ (handleChatMessage db c m).1 := by
        rw [hsplit]; exact List.mem_append_right l1 (List.mem_cons_self ev l2)
      rw [show (handleChatMessage db c m).1 =
          [.check c.userID m.conversationID (.error e)] by
        simp [handleChatMessage, h]] at hmem
      simp at hmem
      rw [hmem] at hdisp
      simp [Ev.isDispatch] at hdisp
    · intro er _ ev hmem
      rw [show (handleChatMessage db c m).1 =
          [.check c.userID m.conversationID (.error e)] by
        simp [handleChatMessage, h]] at hmem
      simp at hmem
      rw [hmem]; rfl
  · cases b
    · constructor
      · intro l1 ev l2 hsplit hdisp
        have hmem : ev ∈ (handleChatMessage db c m).1 := by
          rw [hsplit]; exact List.mem_append_right l1 (List.mem_cons_self ev l2)
        rw [show (handleChatMessage db c m).1 =
            [.check c.userID m.conversationID (.ok false)] by
          simp [handleChatMessage, h]] at hmem
        simp at hmem
        rw [hmem] at hdisp
        simp [Ev.isDispatch] at hdisp
      · intro er _ ev hmem
        rw [show (handleChatMessage db c m).1 =
            [.check c.userID m.conversationID (.ok false)] by
          simp [handleChatMessage, h]] at hmem
        simp at hmem
        rw [hmem]; rfl
    · rcases hp : CreateMessage db m.conversationID c.userID m.content
        with ep | ⟨savedMsg, db2⟩
      · constructor
        · intro l1 ev l2 hsplit hdisp
          have hmem : ev ∈ (handleChatMessage db c m).1 := by
            rw [hsplit]; exact List.mem_append_right l1 (List.mem_cons_self ev l2)
          rw [show (handleChatMessage db c m).1 =
              [.check c.userID m.conversationID (.ok true),
               .persist m.conversationID c.userID m.content (.error ep)] by
            simp [handleChatMessage, h, hp]] at hmem
          simp at hmem
          rcases hmem with hmem | hmem <;> rw [hmem] at hdisp <;>
            simp [Ev.isDispatch] at hdisp
        · intro er _ ev hmem
          rw [show (handleChatMessage db c m).1 =
              [.check c.userID m.conversationID (.ok true),
               .persist m.conversationID c.userID m.content (.error ep)] by
            simp [handleChatMessage, h, hp]] at hmem
          simp at hmem
          rcases hmem with hmem | hmem <;> rw [hmem] <;> rfl
      · have htr : (handleChatMessage db c m).1 =
            .check c.userID m.conversationID (.ok true) ::
            .persist m.conversationID c.userID m.content (.ok savedMsg) ::
            (sendToConversationParticipants db2 c m.conversationID).map
              (fun r => .dispatch r (.chat
                { id := savedMsg.id, conversationID := savedMsg.conversationID,
                  senderID := savedMsg.senderID, senderUsername := c.username,
                  content := savedMsg.content, createdAt := savedMsg.createdAt })) := by
          simp [handleChatMessage, h, hp]
        constructor
        · intro l1 ev l2 hsplit hdisp
          rw [htr] at hsplit
          match l1, hsplit with
          | [], hsplit =>
            have : ev = .check c.userID m.conversationID (.ok true) := by
              simpa using congrArg (fun l => l.head?) hsplit.symm
            rw [this] at hdisp
            simp [Ev.isDispatch] at hdisp
          | [x], hsplit =>
            simp only [List.cons_append, List.nil_append, List.cons.injEq] at hsplit
            rw [← hsplit.2.1] at hdisp
            simp [Ev.isDispatch] at hdisp
          | x :: y :: l1t, hsplit =>
            simp only [List.cons_append, List.cons.injEq] at hsplit
            exact ⟨[x], y, l1t, rfl, by rw [← hsplit.2.1]; rfl⟩
        · intro er her
          exact absurd her (by simp)

/-- Claim C6 witness: the instantiation at a two-party conversation in
which A sends a chat message that persists successfully. -/
theorem persist_before_dispatch_witness :
    (∀ l1 e l2, (handleChatMessage
        ⟨[("A", "alice"), ("B", "bob")], ["c1"],
          [("c1", "A"), ("c1", "B")], [], 1, 5, false, false⟩
        ⟨1, "A", "alice"⟩ ⟨"message", "c1", "hi", false⟩).1 = l1 ++ e :: l2 →
      e.isDispatch = true →
      ∃ p1 p p2, l1 = p1 ++ p :: p2 ∧ Ev.isPersistOk p = true) ∧
    (∀ er, CreateMessage
        ⟨[("A", "alice"), ("B", "bob")], ["c1"],
          [("c1", "A"), ("c1", "B")], [], 1, 5, false, false⟩
        "c1" "A" "hi" = .error er →
      ∀ e ∈ (handleChatMessage
        ⟨[("A", "alice"), ("B", "bob")], ["c1"],
          [("c1", "A"), ("c1", "B")], [], 1, 5, false, false⟩
        ⟨1, "A", "alice"⟩ ⟨"message", "c1", "hi", false⟩).1,
        e.isDispatch = false) :=
  persist_before_dispatch
    ⟨[("A", "alice"), ("B", "bob")], ["c1"],
      [("c1", "A"), ("c1", "B")], [], 1, 5, false, false⟩
    ⟨1, "A", "alice"⟩ ⟨"message", "c1", "hi", false⟩

/-- A closed session stays closed across one register request. -/
theorem hubRegister_closed_mono (w : World) (c : Client) (w2 : World)
    (h : hubRegister w c = some w2) (sid : Nat)
    (hc : w.sidClosed sid = true) : w2.sidClosed sid = true := by
  rcases hex : closeExisting w c.userID with _ | w1
  · simp [hubRegister, hex] at h
  · simp only [hubRegister, hex, Option.map_some'] at h
    obtain rfl : w2 = publish w1 c := (Option.some.inj h).symm
    rw [show (publish w1 c).sidClosed sid = w1.sidClosed sid from rfl]
    rcases hcl : lookupA w.clients c.userID with _ | oldSid
    · simp [closeExisting, hcl] at hex
      subst hex; exact hc
    · simp only [closeExisting, hcl] at hex
      rcases hs : lookupA w.sessions oldSid with _ | s
      · simp [closeSession, hs] at hex
        subst hex; exact hc
      · simp only [closeSession, hs] at hex
        rcases hcs : SessionState.close s with _ | s2
        · simp [hcs] at hex
        · simp only [hcs, Option.map_some'] at hex
          obtain rfl := Option.some.inj hex
          by_cases hsid : sid = oldSid
          · subst hsid
            have : s.chan.isClosed = true := by
              simpa [World.sidClosed, hs] using hc
            exact sidClosed_update_self _ _ _ (close_result_closed s s2 hcs this)
          · rw [sidClosed_update_ne _ _ _ _ hsid]
            exact hc

/-- A closed session stays closed across a sequence of register
requests. -/
theorem registerAll_closed_mono :
    ∀ (cs : List Client) (w w2 : World), registerAll w cs = some w2 →
    ∀ sid, w.sidClosed sid = true → w2.sidClosed sid = true := by
  intro cs
  induction cs with
  | nil =>
    intro w w2 h sid hc
    simp [registerAll] at h
    subst h; exact hc
  | cons c rest ih =>
    intro w w2 h sid hc
    rcases hr : hubRegister w c with _ | wA
    · simp [registerAll, hr] at h
    · simp only [registerAll, hr, Option.some_bind] at h
      exact ih wA w2 h sid (hubRegister_closed_mono w c wA hr sid hc)

/-- Inductive core for claim C1: processing register requests for
identity `u` starting from a state where `u` is mapped to the open
session `cur` that is distinct from every incoming client pointer. -/
theorem registerAll_run (u : String) :
    ∀ (cs : List Client) (w : World) (cur : Nat),
    (∀ c ∈ cs, c.userID = u) →
    (cs.map Client.sid).Nodup →
    (∀ c ∈ cs, w.sidOpen c.sid = true) →
    lookupA w.clients u = some cur →
    w.sidOpen cur = true →
    cur ∉ cs.map Client.sid →
    ∃ w1, registerAll w cs = some w1 ∧
      (cs = [] → w1 = w) ∧
      (∀ cl, cs.getLast? = some cl →
        lookupA w1.clients u = some cl.sid ∧ w1.sidOpen cl.sid = true ∧
        w1.sidClosed cur = true ∧
        (∀ c ∈ cs.dropLast, w1.sidClosed c.sid = true)) := by
  intro cs
  induction cs with
  | nil =>
    intro w cur _ _ _ _ _ _
    exact ⟨w, rfl, fun _ => rfl, fun cl hcl => by simp at hcl⟩
  | cons c rest ih =>
    intro w cur hu hnd hopen hcl hcurOpen hcurNot
    have hcu : c.userID = u := hu c (List.mem_cons_self c rest)
    have hcurNe : cur ≠ c.sid := by
      intro he
      exact hcurNot (by simp [he])
    have hcurNotRest : cur ∉ rest.map Client.sid := by
      intro hm
      exact hcurNot (by simp [hm])
    have hcsidNotRest : c.sid ∉ rest.map Client.sid := by
      have := hnd
      simp only [List.map_cons, List.nodup_cons] at this
      exact this.1
    -- the old session of `u` is open, so its close succeeds
    rcases hs : lookupA w.sessions cur with _ | s
    case cons.none => simp [World.sidOpen, hs] at hcurOpen
    obtain ⟨hsc, hso⟩ := sidOpen_flags w cur s hs hcurOpen
    have hclose : SessionState.close s =
        some ⟨{ s.chan with isClosed := true }, true⟩ := by
      simp [SessionState.close, hso, Chan.goClose, hsc]
    have hreg : hubRegister w c =
        some (publish { w with
          sessions := setA w.sessions cur ⟨{ s.chan with isClosed := true }, true⟩ } c) := by
      simp [hubRegister, closeExisting, hcu, hcl, closeSession, hs, hclose]
    set wA := publish { w with
      sessions := setA w.sessions cur ⟨{ s.chan with isClosed := true }, true⟩ } c with hwA
    have hwAcl : lookupA wA.clients u = some c.sid := by
      rw [hwA]
      simp [publish, hcu, lookupA_setA_self]
    have hwAopen : ∀ c2 ∈ rest, wA.sidOpen c2.sid = true := by
      intro c2 hm
      have hne2 : c2.sid ≠ cur := by
        intro he
        exact hcurNotRest (by
          rw [← he]
          exact List.mem_map_of_mem Client.sid hm)
      rw [hwA, show (publish { w with
          sessions := setA w.sessions cur ⟨{ s.chan with isClosed := true }, true⟩ } c).sidOpen c2.sid =
        World.sidOpen { w with
          sessions := setA w.sessions cur ⟨{ s.chan with isClosed := true }, true⟩ } c2.sid from rfl,
        sidOpen_update_ne _ _ _ _ hne2]
      exact hopen c2 (List.mem_cons_of_mem c hm)
    have hwAopenC : wA.sidOpen c.sid = true := by
      rw [hwA, show (publish { w with
          sessions := setA w.sessions cur ⟨{ s.chan with isClosed := true }, true⟩ } c).sidOpen c.sid =
        World.sidOpen { w with
          sessions := setA w.sessions cur ⟨{ s.chan with isClosed := true }, true⟩ } c.sid from rfl,
        sidOpen_update_ne _ _ _ _ (Ne.symm hcurNe)]
      exact hopen c (List.mem_cons_self c rest)
    have hwAclosedCur : wA.sidClosed cur = true := by
      rw [hwA, show (publish { w with
          sessions := setA w.sessions cur ⟨{ s.chan with isClosed := true }, true⟩ } c).sidClosed cur =
        World.sidClosed { w with
          sessions := setA w.sessions cur ⟨{ s.chan with isClosed := true }, true⟩ } cur from rfl]
      exact sidClosed_update_self _ _ _ rfl
    rcases rest with _ | ⟨r, rest2⟩
    · refine ⟨wA, ?_, ?_, ?_⟩
      · simp [registerAll, hreg]
      · intro h
        exact absurd h (by simp)
      · intro cl hcl2
        simp only [List.getLast?_singleton, Option.some.injEq] at hcl2
        subst hcl2
        exact ⟨hwAcl, hwAopenC, hwAclosedCur, by intro c2 hm; simp at hm⟩
    · have hnd2 : ((r :: rest2).map Client.sid).Nodup := by
        have := hnd
        simp only [List.map_cons, List.nodup_cons] at this ⊢
        exact this.2
      obtain ⟨w1, hw1, _, hlast⟩ :=
        ih wA c.sid (fun c2 hm => hu c2 (List.mem_cons_of_mem c hm)) hnd2
          hwAopen hwAcl hwAopenC hcsidNotRest
      refine ⟨w1, ?_, ?_, ?_⟩
      · simp [registerAll, hreg]
        exact hw1
      · intro h
        exact absurd h (by simp)
      · intro cl hcl2
        rw [List.getLast?_cons_cons] at hcl2
        obtain ⟨h1, h2, h3, h4⟩ := hlast cl hcl2
        refine ⟨h1, h2, ?_, ?_⟩
        · exact registerAll_closed_mono (r :: rest2) wA w1 hw1 cur hwAclosedCur
        · intro c2 hm
          rw [List.dropLast_cons₂] at hm
          rcases List.mem_cons.mp hm with he | hm2
          · subst he
            exact h3
          · exact h4 c2 hm2

/-- Full-sequence specification of `registerAll` for one identity:
after all register requests the registry maps `u` to the most recent
client, whose session is still open, and the sessions of all prior
clients have been closed. -/
theorem registerAll_spec (w0 : World) (u : String) (cs : List Client)
    (hne : cs ≠ [])
    (hu : ∀ c ∈ cs, c.userID = u)
    (hnd : (cs.map Client.sid).Nodup)
    (hopen : ∀ c ∈ cs, w0.sidOpen c.sid = true)
    (hstart : lookupA w0.clients u = none) :
    ∃ w1, registerAll w0 cs = some w1 ∧
      (∀ cl, cs.getLast? = some cl →
        lookupA w1.clients u = some cl.sid ∧ w1.sidOpen cl.sid = true) ∧
      (∀ c ∈ cs.dropLast, w1.sidClosed c.sid = true) := by
  rcases cs with _ | ⟨c0, rest⟩
  · exact absurd rfl hne
  · have hc0u : c0.userID = u := hu c0 (List.mem_cons_self c0 rest)
    have hreg0 : hubRegister w0 c0 = some (publish w0 c0) := by
      simp [hubRegister, closeExisting, hc0u, hstart]
    have hpubcl : lookupA (publish w0 c0).clients u = some c0.sid := by
      simp [publish, hc0u, lookupA_setA_self]
    have hpubopen : ∀ c2 ∈ c0 :: rest, (publish w0 c0).sidOpen c2.sid = true := by
      intro c2 hm
      rw [show (publish w0 c0).sidOpen c2.sid = w0.sidOpen c2.sid from rfl]
      exact hopen c2 hm
    rcases rest with _ | ⟨r, rest2⟩
    · refine ⟨publish w0 c0, by simp [registerAll, hreg0], ?_, ?_⟩
      · intro cl hcl2
        simp only [List.getLast?_singleton, Option.some.injEq] at hcl2
        subst hcl2
        exact ⟨hpubcl, hpubopen c0 (List.mem_cons_self c0 [])⟩
      · intro c2 hm
        simp at hm
    · have hnd2 : ((r :: rest2).map Client.sid).Nodup := by
        simp only [List.map_cons, List.nodup_cons] at hnd ⊢
        exact hnd.2
      have hc0not : c0.sid ∉ (r :: rest2).map Client.sid := by
        simp only [List.map_cons, List.nodup_cons] at hnd
        exact hnd.1
      obtain ⟨w1, hw1, _, hlast⟩ :=
        registerAll_run u (r :: rest2) (publish w0 c0) c0.sid
          (fun c2 hm => hu c2 (List.mem_cons_of_mem c0 hm)) hnd2
          (fun c2 hm => hpubopen c2 (List.mem_cons_of_mem c0 hm)) hpubcl
          (hpubopen c0 (List.mem_cons_self c0 (r :: rest2))) hc0not
      refine ⟨w1, ?_, ?_, ?_⟩
      · simp [registerAll, hreg0]
        exact hw1
      · intro cl hcl2
        rw [List.getLast?_cons_cons] at hcl2
        obtain ⟨h1, h2, _, _⟩ := hlast cl hcl2
        exact ⟨h1, h2⟩
      · intro c2 hm
        rw [List.dropLast_cons₂] at hm
        obtain ⟨_, _, h3, h4⟩ := hlast ((r :: rest2).getLast (by simp))
          (List.getLast?_eq_getLast _ (by simp))
        rcases List.mem_cons.mp hm with he | hm2
        · subst he
          exact h3
        · exact h4 c2 hm2

/-- Claim C1: single-session invariant with supersede ordering. For any
sequence of register requests for the same identity `u`, with pairwise
distinct client pointers whose sessions are allocated and open, starting
from a hub that has no entry for `u`: (1) the whole sequence processes
without panic, afterwards the registry maps `u` to exactly the most
recently registered client — which is still open — and the sessions of
all previously registered clients have been closed; (2) the same holds
after each individual register request, i.e. after every prefix of the
sequence; (3) supersede ordering, a fact about one register step:
whenever a register request finds an existing mapped session, that
session is already closed in the intermediate state in which the map
still holds the old entry, and the register step is exactly this close
followed by publishing the new client. -/
theorem hub_single_session (w0 : World) (u : String) (cs : List Client)
    (hne : cs ≠ [])
    (hu : ∀ c ∈ cs, c.userID = u)
    (hnd : (cs.map Client.sid).Nodup)
    (hopen : ∀ c ∈ cs, w0.sidOpen c.sid = true)
    (hstart : lookupA w0.clients u = none) :
    (∃ w1, registerAll w0 cs = some w1 ∧
      (∀ cl, cs.getLast? = some cl →
        lookupA w1.clients u = some cl.sid ∧ w1.sidOpen cl.sid = true) ∧
      (∀ c ∈ cs.dropLast, w1.sidClosed c.sid = true)) ∧
    (∀ pre c post, cs = pre ++ c :: post →
      ∃ wP, registerAll w0 (pre ++ [c]) = some wP ∧
        lookupA wP.clients u = some c.sid ∧ wP.sidOpen c.sid = true ∧
        (∀ c2 ∈ pre, wP.sidClosed c2.sid = true)) ∧
    (∀ (w : World) (c : Client) (oldSid : Nat),
      lookupA w.clients c.userID = some oldSid →
      w.sidOpen oldSid = true →
      ∃ wMid, closeExisting w c.userID = some wMid ∧
        wMid.sidClosed oldSid = true ∧
        lookupA wMid.clients c.userID = some oldSid ∧
        hubRegister w c = some (publish wMid c)) := by
  refine ⟨registerAll_spec w0 u cs hne hu hnd hopen hstart, ?_, ?_⟩
  · intro pre c post hcs
    have hsub : (pre ++ [c]).Sublist cs := by
      rw [hcs, show pre ++ c :: post = (pre ++ [c]) ++ post by simp]
      exact List.sublist_append_left _ _
    obtain ⟨wP, h1, h2, h3⟩ := registerAll_spec w0 u (pre ++ [c])
      (by simp)
      (fun c2 hm => hu c2 (hsub.subset hm))
      (hnd.sublist (hsub.map Client.sid))
      (fun c2 hm => hopen c2 (hsub.subset hm))
      hstart
    have hlast : (pre ++ [c]).getLast? = some c := by
      simp [List.getLast?_concat]
    obtain ⟨h2a, h2b⟩ := h2 c hlast
    refine ⟨wP, h1, h2a, h2b, ?_⟩
    intro c2 hm
    exact h3 c2 (by rw [List.dropLast_concat]; exact hm)
  · intro w c oldSid hmap hsopen
    rcases hs : lookupA w.sessions oldSid with _ | s
    · simp [World.sidOpen, hs] at hsopen
    · have hflags : s.chan.isClosed = false ∧ s.onceDone = false :=
        sidOpen_flags w oldSid s hs hsopen
      have hclose : SessionState.close s =
          some ⟨{ s.chan with isClosed := true }, true⟩ := by
        simp [SessionState.close, hflags.2, Chan.goClose, hflags.1]
      refine ⟨{ w with
          sessions := setA w.sessions oldSid ⟨{ s.chan with isClosed := true }, true⟩ },
        ?_, ?_, hmap, ?_⟩
      · simp [closeExisting, hmap, closeSession, hs, hclose]
      · exact sidClosed_update_self _ _ _ rfl
      · simp [hubRegister, closeExisting, hmap, closeSession, hs, hclose]

/-- Claim C1 witness: three clients (pointers 1, 2, 3) registering in
turn for user u from an empty registry with three allocated open
sessions. -/
theorem hub_single_session_witness :
    (∃ w1, registerAll
        ⟨[], [(1, ⟨⟨8, [], false⟩, false⟩), (2, ⟨⟨8, [], false⟩, false⟩),
          (3, ⟨⟨8, [], false⟩, false⟩)], 0, []⟩
        [⟨1, "u", "n1"⟩, ⟨2, "u", "n2"⟩, ⟨3, "u", "n3"⟩] = some w1 ∧
      (∀ cl, ([⟨1, "u", "n1"⟩, ⟨2, "u", "n2"⟩, ⟨3, "u", "n3"⟩] : List Client).getLast? = some cl →
        lookupA w1.clients "u" = some cl.sid ∧ w1.sidOpen cl.sid = true) ∧
      (∀ c ∈ ([⟨1, "u", "n1"⟩, ⟨2, "u", "n2"⟩, ⟨3, "u", "n3"⟩] : List Client).dropLast,
        w1.sidClosed c.sid = true)) ∧
    (∀ pre c post,
      ([⟨1, "u", "n1"⟩, ⟨2, "u", "n2"⟩, ⟨3, "u", "n3"⟩] : List Client) =
        pre ++ c :: post →
      ∃ wP, registerAll
          ⟨[], [(1, ⟨⟨8, [], false⟩, false⟩), (2, ⟨⟨8, [], false⟩, false⟩),
            (3, ⟨⟨8, [], false⟩, false⟩)], 0, []⟩ (pre ++ [c]) = some wP ∧
        lookupA wP.clients "u" = some c.sid ∧ wP.sidOpen c.sid = true ∧
        (∀ c2 ∈ pre, wP.sidClosed c2.sid = true)) ∧
    (∀ (w : World) (c : Client) (oldSid : Nat),
      lookupA w.clients c.userID = some oldSid →
      w.sidOpen oldSid = true →
      ∃ wMid, closeExisting w c.userID = some wMid ∧
        wMid.sidClosed oldSid = true ∧
        lookupA wMid.clients c.userID = some oldSid ∧
        hubRegister w c = some (publish wMid c)) :=
  hub_single_session
    ⟨[], [(1, ⟨⟨8, [], false⟩, false⟩), (2, ⟨⟨8, [], false⟩, false⟩),
      (3, ⟨⟨8, [], false⟩, false⟩)], 0, []⟩
    "u" [⟨1, "u", "n1"⟩, ⟨2, "u", "n2"⟩, ⟨3, "u", "n3"⟩]
    (by decide) (by decide) (by decide) (by decide) rfl

/-- Splitting the guarded `filterMap` of the conversation-row query
into a `filter` followed by a `filterMap`. -/
theorem convRowsFor_split (db : DB) (u cid : String) :
    ∀ l : List (String × String),
      (l.filterMap (fun p =>
        if p.1 = cid ∧ p.2 ≠ u ∧ (cid, u) ∈ db.participants then
          (lookupA db.users p.2).map
            (fun un => (⟨cid, p.2, un⟩ : ConversationWithParticipants))
        else none)) =
      ((l.filter (fun p =>
          decide (p.1 = cid ∧ p.2 ≠ u ∧ (cid, u) ∈ db.participants))).filterMap
        (fun p => (lookupA db.users p.2).map
          (fun un => (⟨cid, p.2, un⟩ : ConversationWithParticipants)))) := by
  intro l
  induction l with
  | nil => rfl
  | cons a t ih =>
    simp only [List.filterMap_cons, List.filter_cons]
    by_cases h : a.1 = cid ∧ a.2 ≠ u ∧ (cid, u) ∈ db.participants
    · rw [if_pos h, if_pos (decide_eq_true h)]
      cases hg : lookupA db.users a.2
      · simp only [hg, Option.map_none', List.filterMap_cons]
        exact ih
      · simp only [hg, Option.map_some', List.filterMap_cons]
        rw [ih]
    · rw [if_neg h, if_neg (by simp [decide_eq_false h])]
      exact ih

/-- Every row contributed by conversation `cid` carries id `cid`. -/
theorem convRowsFor_id (db : DB) (u cid : String) :
    ∀ row ∈ convRowsFor db u cid, row.id = cid := by
  intro row hm
  simp only [convRowsFor, List.mem_filterMap] at hm
  obtain ⟨p, _, hp⟩ := hm
  by_cases h : p.1 = cid ∧ p.2 ≠ u ∧ (cid, u) ∈ db.participants
  · rw [if_pos h] at hp
    rcases hl : lookupA db.users p.2 with _ | un
    · rw [hl] at hp; cases hp
    · rw [hl] at hp
      simp only [Option.map_some'] at hp
      rw [← Option.some.inj hp]
  · rw [if_neg h] at hp; cases hp

/-- In a two-party conversation, the rows the sender sees for it list
exactly the one other participant. -/
theorem convRowsFor_two (db : DB) (u cid b bn : String)
    (hfilter : db.participants.filter
        (fun p => decide (p.1 = cid ∧ p.2 ≠ u ∧ (cid, u) ∈ db.participants)) =
      [(cid, b)])
    (hbn : lookupA db.users b = some bn) :
    convRowsFor db u cid = [⟨cid, b, bn⟩] := by
  rw [convRowsFor, convRowsFor_split db u cid db.participants, hfilter]
  simp [List.filterMap_cons, hbn]

/-- The first row matching conversation `cid` in the full listing is
the single row `cid` contributes, whichever conversations precede
it. -/
theorem find_in_flatMap (db : DB) (u cid : String)
    (row : ConversationWithParticipants)
    (hrow : convRowsFor db u cid = [row]) :
    ∀ convs : List String, cid ∈ convs →
    (convs.flatMap (convRowsFor db u)).find? (fun v => v.id == cid) =
      some row := by
  intro convs
  induction convs with
  | nil =>
    intro h
    simp at h
  | cons c0 rest ih =>
    intro hmem
    have hstep : (c0 :: rest).flatMap (convRowsFor db u) =
        convRowsFor db u c0 ++ rest.flatMap (convRowsFor db u) := rfl
    rw [hstep, List.find?_append]
    by_cases hc : c0 = cid
    · subst hc
      have hid : row.id = c0 :=
        convRowsFor_id db u c0 row (by rw [hrow]; exact List.mem_singleton_self row)
      rw [hrow]
      simp [List.find?, hid]
    · have hnone : (convRowsFor db u c0).find? (fun v => v.id == cid) = none := by
        rw [List.find?_eq_none]
        intro x hx
        have hid := convRowsFor_id db u c0 x hx
        simp [hid, hc]
      rw [hnone]
      have hmem2 : cid ∈ rest := by
        rcases List.mem_cons.mp hmem with h | h
        · exact absurd h.symm hc
        · exact h
      simp [ih hmem2]

/-- Claim C2 (refuted as stated): in a conversation g with participants
A, B and C, a chat message from A is dispatched only to B and to A —
participant C, although a member, receives no dispatch, because the
fan-out helper sends to the single `OtherUserID` of the first matching
row of the sender conversation listing and then stops. -/
theorem chat_fanout_three_party_incomplete :
    dispatchTargets (handleChatMessage
      ⟨[("A", "a"), ("B", "b"), ("C", "c")], ["g"],
        [("g", "A"), ("g", "B"), ("g", "C")], [], 1, 5, false, false⟩
      ⟨1, "A", "a"⟩ ⟨"message", "g", "hi", false⟩).1 = ["B", "A"] ∧
    ("g", "C") ∈ ([("g", "A"), ("g", "B"), ("g", "C")] :
      List (String × String)) ∧
    "C" ∉ dispatchTargets (handleChatMessage
      ⟨[("A", "a"), ("B", "b"), ("C", "c")], ["g"],
        [("g", "A"), ("g", "B"), ("g", "C")], [], 1, 5, false, false⟩
      ⟨1, "A", "a"⟩ ⟨"message", "g", "hi", false⟩).1 := by
  refine ⟨by decide, by decide, by decide⟩

/-- Claim C2 (amended): fan-out is complete for two-party
conversations. If the sender is a participant of the conversation and
exactly one other user b is a participant, queries and persistence
succeed, then the chat message is dispatched exactly to b and to the
sender, one dispatch each and to no one else. (In conversations with
three or more participants only the first listed other participant and
the sender receive the event, per the counterexample.) -/
theorem chat_fanout_two_party (db : DB) (c : Client) (m : IncomingMessage)
    (b bn : String)
    (hq : db.failQuery = false)
    (hp : db.failPersist = false)
    (hmem : (m.conversationID, c.userID) ∈ db.participants)
    (hfilter : db.participants.filter
        (fun p => decide (p.1 = m.conversationID ∧ p.2 ≠ c.userID ∧
          (m.conversationID, c.userID) ∈ db.participants)) =
      [(m.conversationID, b)])
    (hcid : m.conversationID ∈ db.conversations)
    (hbn : lookupA db.users b = some bn) :
    dispatchTargets (handleChatMessage db c m).1 = [b, c.userID] := by
  have hchk : IsUserInConversation db c.userID m.conversationID = .ok true := by
    simp [IsUserInConversation, hq, hmem]
  rcases hcm : CreateMessage db m.conversationID c.userID m.content
    with er | ⟨sm, db2⟩
  · rw [CreateMessage, if_neg (by simp [hp])] at hcm
    cases hcm
  · have hdb2 : db2 = { db with
        messages := db.messages ++
          [{ id := db.nextID, conversationID := m.conversationID,
             senderID := c.userID, content := m.content,
             createdAt := db.now }],
        nextID := db.nextID + 1 } := by
      rw [CreateMessage, if_neg (by simp [hp])] at hcm
      exact (Prod.mk.injEq _ _ _ _ ▸ Except.ok.inj hcm).2.symm
    have hdbp : db2.participants = db.participants := by rw [hdb2]
    have hdbc : db2.conversations = db.conversations := by rw [hdb2]
    have hdbu : db2.users = db.users := by rw [hdb2]
    have hdbq : db2.failQuery = false := by rw [hdb2]; exact hq
    have hrows : convRowsFor db2 c.userID m.conversationID =
        [⟨m.conversationID, b, bn⟩] :=
      convRowsFor_two db2 c.userID m.conversationID b bn
        (by rw [hdbp]; exact hfilter)
        (by rw [hdbu]; exact hbn)
    have hfind : (db2.conversations.flatMap (convRowsFor db2 c.userID)).find?
        (fun v => v.id == m.conversationID) =
        some ⟨m.conversationID, b, bn⟩ :=
      find_in_flatMap db2 c.userID m.conversationID _ hrows db2.conversations
        (by rw [hdbc]; exact hcid)
    have hsend : sendToConversationParticipants db2 c m.conversationID =
        [b, c.userID] := by
      simp [sendToConversationParticipants, GetUserConversations, hdbq, hfind]
    simp [handleChatMessage, hchk, hcm, dispatchTargets, hsend]

/-- Claim C2 witness: the two-party conversation c1 of A and B; a chat
message from A is dispatched exactly to B and then to A. -/
theorem chat_fanout_two_party_witness :
    dispatchTargets (handleChatMessage
      ⟨[("A", "a"), ("B", "b")], ["c1"], [("c1", "A"), ("c1", "B")],
        [], 1, 5, false, false⟩
      ⟨1, "A", "a"⟩ ⟨"message", "c1", "hi", false⟩).1 = ["B", "A"] :=
  chat_fanout_two_party
    ⟨[("A", "a"), ("B", "b")], ["c1"], [("c1", "A"), ("c1", "B")],
      [], 1, 5, false, false⟩
    ⟨1, "A", "a"⟩ ⟨"message", "c1", "hi", false⟩ "B" "b"
    rfl rfl (by decide) (by decide) (by decide) rfl

end ChatGo
